import Mathlib

/-!
Verification development for the OSM → Google Workspace group-sync
repository.  The Python sources are shallowly embedded as executable Lean
definitions:

* `src/src/gsuite_sync/groups_api.py` — `GoogleGroupsManager.get_group_members`,
  `add_member`, `remove_member`, `sync_group` (the reconciliation engine);
* `src/src/api.py` — `perform_sync` (the batch driver);
* `src/osm_api/models.py` — `Contact`, `Member`, `Section` and their
  classification / email-collection methods.

Python sets of strings are modelled as duplicate-free lists built by
`addElem`; directory-service interaction is modelled by threading an
explicit `Directory` state and by oracle functions giving the HTTP outcome
of each provider call.
-/

deriving instance DecidableEq for Except

namespace OsmGsuite

/-! ## Email normalization (groups_api.py lines 256-258, models.py lines 90-100)

Python's `str.lower` on the ASCII range is `Char.toLower`; `str.replace`
(replace every non-overlapping occurrence, scanning left to right) is
`replFrom` below, specialised to the one call site
`email.replace('@googlemail.com', '@gmail.com')`. -/

/-- `stripPat pat s` returns `some rest` when `pat` is a prefix of `s`,
with `rest` the remainder after the pattern. -/
def stripPat : List Char → List Char → Option (List Char)
  | [], s => some s
  | _ :: _, [] => none
  | p :: ps, c :: cs => if c = p then stripPat ps cs else none

/-- The pattern `@googlemail.com` of the one `str.replace` call site. -/
def googlemailPat : List Char :=
  ['@', 'g', 'o', 'o', 'g', 'l', 'e', 'm', 'a', 'i', 'l', '.', 'c', 'o', 'm']

/-- The replacement `@gmail.com`. -/
def gmailRep : List Char := ['@', 'g', 'm', 'a', 'i', 'l', '.', 'c', 'o', 'm']

/-- Left-to-right, non-overlapping replacement of `googlemailPat` by
`gmailRep`, with explicit fuel (structural recursion; `replaceGooglemail`
supplies enough fuel for the scan to finish). -/
def replAux : Nat → List Char → List Char
  | 0, s => s
  | _ + 1, [] => []
  | fuel + 1, c :: cs =>
    match stripPat googlemailPat (c :: cs) with
    | some rest => gmailRep ++ replAux fuel rest
    | none => c :: replAux fuel cs

/-- Python `s.replace('@googlemail.com', '@gmail.com')` on a char list. -/
def replaceGooglemail (s : List Char) : List Char := replAux s.length s

/-- Python `s.lower()` (ASCII, as in the email data handled here). -/
def pyLowerStr (s : String) : String := ⟨s.data.map Char.toLower⟩

/-- Python `s.replace('@googlemail.com', '@gmail.com')` on a `String`. -/
def replaceGooglemailStr (s : String) : String := ⟨replaceGooglemail s.data⟩

/-- The normalization applied to every address that enters a membership
set: lowercase, then canonicalize the `googlemail.com` alias domain to
`gmail.com` (groups_api.py lines 256-258; models.py lines 90-100). -/
def normalizeEmail (s : String) : String := replaceGooglemailStr (pyLowerStr s)

/-! ## Python-set primitives

A Python `set` of strings is modelled as a duplicate-free list; `addElem`
is `set.add`, `setDiff` is set difference, `length` is `len`. -/

/-- `set.add`: append the element unless already present. -/
def addElem (l : List String) (e : String) : List String :=
  if e ∈ l then l else l ++ [e]

/-- Python set difference `a - b` on the list model. -/
def setDiff (a b : List String) : List String :=
  a.filter (fun e => !(b.contains e))

/-- Lexicographic `≤` on char lists (Python string comparison). -/
def charListLe : List Char → List Char → Bool
  | [], _ => true
  | _ :: _, [] => false
  | a :: as, b :: bs =>
    if a < b then true else if a = b then charListLe as bs else false

/-- Python `s <= t` for strings. -/
def strLe (a b : String) : Bool := charListLe a.data b.data

/-- Insert into a `strLe`-sorted list, keeping it sorted. -/
def insertSorted (x : String) : List String → List String
  | [] => [x]
  | y :: ys => if strLe x y then x :: y :: ys else y :: insertSorted x ys

/-- Python `sorted(l)` for a list of strings (insertion sort). -/
def sortEmails (l : List String) : List String := l.foldr insertSorted []

/-! ## Directory service model

`Directory` is the state of the workspace directory service: the raw
member list the provider holds per group address.  Each provider call
additionally has an HTTP-level outcome given by an oracle (`ApiResult`):
`ok`, or an `HttpError` with a status code. -/

/-- HTTP-level outcome of one provider call. -/
inductive ApiResult where
  | ok : ApiResult
  | httpError (status : Nat) : ApiResult
deriving DecidableEq, Repr

/-- The directory service's membership state: raw member email list per
group address (in provider listing order). -/
structure Directory where
  mem : String → List String

/-- Insert a member into a group's stored list (provider-side effect of a
successful `members().insert` call). -/
def addToGroup (st : Directory) (group email : String) : Directory :=
  ⟨fun g => if g = group then
      (if email ∈ st.mem group then st.mem group else st.mem group ++ [email])
    else st.mem g⟩

/-- Remove a member from a group's stored list (provider-side effect of a
successful `members().delete` call). -/
def removeFromGroup (st : Directory) (group email : String) : Directory :=
  ⟨fun g => if g = group then (st.mem group).filter (fun x => !(x == email))
    else st.mem g⟩

/-! ## GoogleGroupsManager.get_group_members (groups_api.py lines 235-272)

The paginated listing is modelled as its overall outcome: either the full
sequence of pages (each a raw email list), or an `HttpError` status raised
at some page. -/

/-- Output of `get_group_members`: the normalized member set, plus whether
the warning-level "group not found" path was taken. -/
structure FetchResult where
  members : List String
  notFoundWarning : Bool
deriving DecidableEq, Repr

/-- The `members.add(email)` accumulation loop over all pages, with the
per-member lowercase + googlemail→gmail normalization of lines 256-258. -/
def collectMembers (pages : List (List String)) : List String :=
  pages.foldl (fun acc page => page.foldl (fun a m => addElem a (normalizeEmail m)) acc) []

/-- `GoogleGroupsManager.get_group_members`: on a successful listing,
return the normalized member set; on HTTP 404 print a warning and return
the empty set; re-raise any other `HttpError`. -/
def get_group_members (listing : Except Nat (List (List String))) :
    Except Nat FetchResult :=
  match listing with
  | .ok pages => .ok ⟨collectMembers pages, false⟩
  | .error status => if status = 404 then .ok ⟨[], true⟩ else .error status

/-! ## Mutation primitives (groups_api.py lines 274-326) -/

/-- `GoogleGroupsManager.add_member`: in dry-run mode return `True`
without any call; otherwise attempt the insert, treating HTTP 409
(already a member) as success and any other `HttpError` as a logged
failure (`False`).  The returned `Directory` is the provider state after
the call. -/
def add_member (dry_run : Bool) (resp : ApiResult) (group email : String)
    (st : Directory) : Bool × Directory :=
  if dry_run then (true, st)
  else
    match resp with
    | .ok => (true, addToGroup st group email)
    | .httpError s => if s = 409 then (true, st) else (false, st)

/-- `GoogleGroupsManager.remove_member`: dry-run returns `True`; live
mode treats HTTP 404 (not a member) as success and any other `HttpError`
as a logged failure. -/
def remove_member (dry_run : Bool) (resp : ApiResult) (group email : String)
    (st : Directory) : Bool × Directory :=
  if dry_run then (true, st)
  else
    match resp with
    | .ok => (true, removeFromGroup st group email)
    | .httpError s => if s = 404 then (true, st) else (false, st)

/-- The boolean `add_member` returns in live mode, as a function of the
provider outcome alone. -/
def addOk : ApiResult → Bool
  | .ok => true
  | .httpError s => s == 409

/-- The boolean `remove_member` returns in live mode. -/
def removeOk : ApiResult → Bool
  | .ok => true
  | .httpError s => s == 404

/-! ## GoogleGroupsManager.sync_group (groups_api.py lines 328-410) -/

/-- The result dict of `sync_group`. -/
structure SyncResult where
  group_email : String
  current_count : Nat
  target_count : Nat
  added_count : Nat
  removed_count : Nat
  added_emails : List String
  removed_emails : List String
deriving DecidableEq, Repr

/-- Oracle for the provider outcomes one `sync_group` call observes:
whether the member listing raises (and with which status), and the HTTP
outcome of the insert/delete call for each address. -/
structure SyncEnv where
  fetchFault : Option Nat
  addResp : String → ApiResult
  delResp : String → ApiResult

/-- The listing outcome `get_group_members` sees, as determined by the
fault oracle and the provider state (one page holding the raw list). -/
def listingOf (fault : Option Nat) (st : Directory) (g : String) :
    Except Nat (List (List String)) :=
  match fault with
  | some s => .error s
  | none => .ok [st.mem g]

/-- One mutation loop of `sync_group`: iterate over the delta, count the
calls that returned `True` and append those addresses, threading the
provider state. -/
def applyMutations (step : String → Directory → Bool × Directory) :
    List String → Directory → Nat × List String × Directory
  | [], st => (0, [], st)
  | e :: rest, st =>
    let r := step e st
    let rec' := applyMutations step rest r.2
    if r.1 then (rec'.1 + 1, e :: rec'.2.1, rec'.2.2) else rec'

/-- `GoogleGroupsManager.sync_group`: build the group address from the
optional domain, fetch and normalize current membership, compute the
add/remove deltas by set difference, then either (dry run) report the
deltas without mutating, or (live) attempt every add and every remove,
reporting the counts and sorted lists of the successful ones.  The
returned `Directory` is the provider state afterwards; a non-404 listing
failure propagates as `Except.error`. -/
def sync_group (domain : Option String) (dry_run : Bool) (env : SyncEnv)
    (group_name : String) (target_emails : List String) (st : Directory) :
    Except Nat SyncResult × Directory :=
  let group_email := match domain with
    | some d => group_name ++ "@" ++ d
    | none => group_name
  match get_group_members (listingOf env.fetchFault st group_email) with
  | .error s => (.error s, st)
  | .ok fetched =>
    let current_emails := fetched.members
    let to_add := setDiff target_emails current_emails
    let to_remove := setDiff current_emails target_emails
    if dry_run then
      (.ok { group_email := group_email
             current_count := current_emails.length
             target_count := target_emails.length
             added_count := to_add.length
             removed_count := to_remove.length
             added_emails := sortEmails to_add
             removed_emails := sortEmails to_remove }, st)
    else
      let addRun := applyMutations
        (fun e s => add_member false (env.addResp e) group_email e s) to_add st
      let removeRun := applyMutations
        (fun e s => remove_member false (env.delResp e) group_email e s)
        to_remove addRun.2.2
      (.ok { group_email := group_email
             current_count := current_emails.length
             target_count := target_emails.length
             added_count := addRun.1
             removed_count := removeRun.1
             added_emails := sortEmails addRun.2.1
             removed_emails := sortEmails removeRun.2.1 }, removeRun.2.2)

/-! ## Roster data model (src/osm_api/models.py) -/

/-- A calendar date as Python's `datetime.date` holds it. -/
structure PDate where
  year : Int
  month : Nat
  day : Nat
deriving DecidableEq, Repr

/-- Python tuple comparison `(a.month, a.day) < (b.month, b.day)`. -/
def monthDayLt (a b : PDate) : Bool :=
  if a.month < b.month then true
  else if a.month = b.month then decide (a.day < b.day)
  else false

/-- Gregorian leap-year test of the proleptic calendar `datetime.date`
uses. -/
def isLeapYear (y : Int) : Bool :=
  (y % 4 == 0 && y % 100 != 0) || y % 400 == 0

/-- Days in a Gregorian month (`datetime.date` calendar). -/
def daysInMonth (y : Int) (m : Nat) : Nat :=
  if m = 2 then (if isLeapYear y then 29 else 28)
  else if m = 4 ∨ m = 6 ∨ m = 9 ∨ m = 11 then 30
  else 31

/-- The calendar successor of a date (`datetime.date + timedelta(days=1)`);
used to state "one day before" a given date. -/
def nextDay (d : PDate) : PDate :=
  if d.day < daysInMonth d.year d.month then ⟨d.year, d.month, d.day + 1⟩
  else if d.month < 12 then ⟨d.year, d.month + 1, 1⟩
  else ⟨d.year + 1, 1, 1⟩

/-- Decider for `EMAIL_REGEX = ^[a-zA-Z0-9_.+-]+@[a-zA-Z0-9-]+\.[a-zA-Z0-9-.]+$`
(models.py line 11): the language is exactly `A+ '@' B+ '.' C+` with the
three character classes below; since `A`, `B`, `C` all exclude `'@'` and
`B` excludes `'.'`, splitting at the first `'@'` and then the first `'.'`
decides membership. -/
def isClassA (c : Char) : Bool :=
  c.isAlphanum || c = '_' || c = '.' || c = '+' || c = '-'

/-- Class `[a-zA-Z0-9-]` of `EMAIL_REGEX`. -/
def isClassB (c : Char) : Bool := c.isAlphanum || c = '-'

/-- Class `[a-zA-Z0-9-.]` of `EMAIL_REGEX`. -/
def isClassC (c : Char) : Bool := c.isAlphanum || c = '-' || c = '.'

/-- `EMAIL_REGEX.match(s)` as a boolean (full-shape check). -/
def emailShape (s : String) : Bool :=
  let cs := s.data
  let u := cs.takeWhile (fun c => !(c = '@'))
  match cs.dropWhile (fun c => !(c = '@')) with
  | '@' :: v =>
    let b := v.takeWhile (fun c => !(c = '.'))
    (match v.dropWhile (fun c => !(c = '.')) with
     | '.' :: cpart =>
       !u.isEmpty && u.all isClassA && !b.isEmpty && b.all isClassB &&
         !cpart.isEmpty && cpart.all isClassC
     | _ => false)
  | _ => false

/-- `Contact` (models.py lines 14-33). -/
structure Contact where
  first_name : String
  last_name : String
  email_1 : Option String := none
  email_2 : Option String := none
deriving DecidableEq, Repr

/-- One slot of `Contact.get_valid_emails`: keep the address lowercased
when present and matching `EMAIL_REGEX`. -/
def validLowerSlot (e : Option String) : List String :=
  match e with
  | none => []
  | some s => if emailShape s then [pyLowerStr s] else []

/-- `Contact.get_valid_emails` (models.py lines 22-28). -/
def get_valid_emails (ct : Contact) : List String :=
  validLowerSlot ct.email_1 ++ validLowerSlot ct.email_2

/-- `Member` (models.py lines 36-152); only the fields the classification
and email collection read. -/
structure Member where
  member_id : String
  first_name : String
  last_name : String
  date_of_birth : PDate
  patrol : String
  member_email_1 : Option String := none
  member_email_2 : Option String := none
  contacts : List Contact := []
deriving DecidableEq, Repr

/-- `Member.age_at_date` (models.py lines 51-56): calendar-year difference
minus one when the birthday has not yet occurred by the reference date's
month/day. -/
def age_at_date (m : Member) (reference_date : PDate) : Int :=
  reference_date.year - m.date_of_birth.year -
    (if monthDayLt reference_date m.date_of_birth then 1 else 0)

/-- `Member.is_leader` (models.py lines 63-66): membership in the
`Leaders` or `Young Leaders (YLs)` patrol. -/
def is_leader (m : Member) : Bool :=
  m.patrol == "Leaders" || m.patrol == "Young Leaders (YLs)"

/-- `Member.is_adult_leader` (models.py lines 68-71), with `date.today()`
made an explicit parameter. -/
def is_adult_leader (m : Member) (today : PDate) : Bool :=
  is_leader m && decide (18 ≤ age_at_date m today)

/-- `Member.is_young_leader` (models.py lines 73-76). -/
def is_young_leader (m : Member) (today : PDate) : Bool :=
  is_leader m && decide (age_at_date m today < 18)

/-- One own-email slot of `Member.get_contact_emails` (models.py lines
88-94): lowercase, validate the lowered form, then canonicalize the
googlemail domain. -/
def ownEmailSlot (e : Option String) : List String :=
  match e with
  | none => []
  | some s =>
    let sl := pyLowerStr s
    if emailShape sl then [replaceGooglemailStr sl] else []

/-- `Member.get_contact_emails` (models.py lines 83-103): the member's own
valid normalized emails followed by every contact's valid emails with the
googlemail domain canonicalized. -/
def get_contact_emails (m : Member) : List String :=
  ownEmailSlot m.member_email_1 ++ ownEmailSlot m.member_email_2 ++
    (m.contacts.map (fun ct => (get_valid_emails ct).map replaceGooglemailStr)).flatten

/-- `Section` (models.py lines 187-257); only the member roster matters
for the target-set computation. -/
structure Section where
  sectionid : String
  sectionname : String
  members : List Member := []
deriving DecidableEq, Repr

/-- The `emails.update(member.get_contact_emails())` accumulation shared
by the three target-set getters, filtering members by a predicate. -/
def collectEmails (ms : List Member) (p : Member → Bool) : List String :=
  ms.foldl (fun acc m => if p m then (get_contact_emails m).foldl addElem acc else acc) []

/-- `Section.get_leaders_emails` (models.py lines 197-203). -/
def get_leaders_emails (s : Section) (today : PDate) : List String :=
  collectEmails s.members (fun m => is_adult_leader m today)

/-- `Section.get_young_leaders_emails` (models.py lines 205-215). -/
def get_young_leaders_emails (s : Section) (today : PDate) : List String :=
  collectEmails s.members (fun m => is_young_leader m today)

/-- `Section.get_parents_emails` (models.py lines 217-223); unlike the
two leader getters it does not consult the date. -/
def get_parents_emails (s : Section) (_today : PDate) : List String :=
  collectEmails s.members (fun m => !(is_leader m))

/-! ## Batch driver: perform_sync (src/src/api.py lines 68-206)

The external calls `perform_sync` makes are modelled by their outcomes:
configuration loading and the initial section/term fetch each either
succeed or raise; then, per configured section, `osm_calls.get_members`
either succeeds or raises, and each of the three `manager.sync_group`
calls either returns a result dict or raises.  Exceptions are `String`
messages (Python `str(e)`). -/

/-- The part of one `sync_group` return value the driver reads:
`added_emails` and `removed_emails`. -/
structure GroupSyncOutput where
  added_emails : List String
  removed_emails : List String
deriving DecidableEq, Repr

/-- One configured section as the driver sees it: its name, whether a
current term was attached, the outcome of its member fetch, and the
outcomes of the three per-group `sync_group` calls, keyed by group type
(`leaders`, `young_leaders`, `parents`). -/
structure BatchSection where
  sectionname : String
  hasTerm : Bool
  membersFetch : Except String Unit
  groupCalls : List (String × Except String GroupSyncOutput)
deriving Repr

/-- One audit record written through `logger.log_sync`. -/
structure AuditEntry where
  section_name : String
  group_type : String
  status : String
  members_added : List String
  members_removed : List String
  error_message : Option String
deriving DecidableEq, Repr

/-- The `results` dict of `perform_sync`. -/
structure BatchResults where
  status : String
  sections_synced : Nat
  groups_synced : Nat
  total_added : Nat
  total_removed : Nat
  errors : List String
deriving DecidableEq, Repr

/-- The initial `results` dict (api.py lines 79-88). -/
def initialResults : BatchResults :=
  { status := "success", sections_synced := 0, groups_synced := 0
    total_added := 0, total_removed := 0, errors := [] }

/-- The inner per-group loop (api.py lines 150-193): a successful
`sync_group` call logs a SUCCESS entry and accumulates the counters; an
exception is caught, appended to the error list, logged as an ERROR
entry, and the loop continues with the next group. -/
def runGroups (sname : String)
    (calls : List (String × Except String GroupSyncOutput))
    (res : BatchResults) (log : List AuditEntry) :
    BatchResults × List AuditEntry :=
  match calls with
  | [] => (res, log)
  | (gtype, outcome) :: rest =>
    match outcome with
    | .ok r =>
      runGroups sname rest
        { res with groups_synced := res.groups_synced + 1
                   total_added := res.total_added + r.added_emails.length
                   total_removed := res.total_removed + r.removed_emails.length }
        (log ++ [{ section_name := sname, group_type := gtype, status := "success"
                   members_added := r.added_emails, members_removed := r.removed_emails
                   error_message := none }])
    | .error e =>
      runGroups sname rest
        { res with errors := res.errors ++ [sname ++ " - " ++ gtype ++ ": " ++ e] }
        (log ++ [{ section_name := sname, group_type := gtype, status := "error"
                   members_added := [], members_removed := []
                   error_message := some e }])

/-- The per-section loop (api.py lines 130-195): a section with no
current term only appends an error string; a failing member fetch raises
out of the loop (returned as `some e`); otherwise the three group calls
run and `sections_synced` is incremented. -/
def runSections (sections : List BatchSection)
    (res : BatchResults) (log : List AuditEntry) :
    BatchResults × List AuditEntry × Option String :=
  match sections with
  | [] => (res, log, none)
  | s :: rest =>
    if s.hasTerm then
      match s.membersFetch with
      | .error e => (res, log, some e)
      | .ok _ =>
        let g := runGroups s.sectionname s.groupCalls res log
        runSections rest
          { g.1 with sections_synced := g.1.sections_synced + 1 } g.2
    else
      runSections rest
        { res with errors := res.errors ++ ["No current term for " ++ s.sectionname] }
        log

/-- `perform_sync` (api.py lines 68-206): configuration loading or the
initial roster fetch raising makes the whole run `failed`; otherwise the
sections are processed, an exception escaping the per-section loop makes
the run `failed` (keeping whatever had accumulated), and a completed run
is `completed_with_errors` when any error was recorded and `success`
otherwise.  The second component is the audit log written. -/
def perform_sync (cfg : Except String Unit)
    (sectionsFetch : Except String (List BatchSection)) :
    BatchResults × List AuditEntry :=
  match cfg with
  | .error e => ({ initialResults with status := "failed", errors := [e] }, [])
  | .ok _ =>
    match sectionsFetch with
    | .error e => ({ initialResults with status := "failed", errors := [e] }, [])
    | .ok sections =>
      match runSections sections initialResults [] with
      | (res, log, some e) =>
        ({ res with status := "failed", errors := res.errors ++ [e] }, log)
      | (res, log, none) =>
        (if res.errors.isEmpty then res
         else { res with status := "completed_with_errors" }, log)

/-- Run a sequence of Preview-mode (`dry_run = true`) `sync_group` calls,
each with its own domain, oracle, group name and target set, threading
the directory state. -/
def runPreviews (calls : List (Option String × SyncEnv × String × List String))
    (st : Directory) : Directory :=
  calls.foldl (fun s c => (sync_group c.1 true c.2.1 c.2.2.1 c.2.2.2 s).2) st

/-- Whether an `Except` value is a success (Python: the call did not
raise). -/
def exceptOk {e a : Type} : Except e a → Bool
  | .ok _ => true
  | .error _ => false

/-- The audit entry `perform_sync` writes for one group call. -/
def entryOf (sname : String) (c : String × Except String GroupSyncOutput) : AuditEntry :=
  match c.2 with
  | .ok r => { section_name := sname, group_type := c.1, status := "success"
               members_added := r.added_emails, members_removed := r.removed_emails
               error_message := none }
  | .error e => { section_name := sname, group_type := c.1, status := "error"
                  members_added := [], members_removed := []
                  error_message := some e }

/-- The error string `perform_sync` appends for a failing group call. -/
def errorStringOf (sname : String) (c : String × Except String GroupSyncOutput) :
    Option String :=
  match c.2 with
  | .ok _ => none
  | .error e => some (sname ++ " - " ++ c.1 ++ ": " ++ e)

/-! ## Helper lemmas -/

/-- Membership in the Python set difference. -/
theorem mem_setDiff {e : String} {a b : List String} :
    e ∈ setDiff a b ↔ e ∈ a ∧ e ∉ b := by
  simp [setDiff]

/-- Membership after a `set.add`. -/
theorem mem_addElem {x e : String} {l : List String} :
    x ∈ addElem l e ↔ x ∈ l ∨ x = e := by
  by_cases h : e ∈ l <;> simp [addElem, h]
  exact fun hx => hx ▸ h

/-- Membership after folding `set.add` over a list. -/
theorem mem_foldl_addElem {x : String} (l acc : List String) :
    x ∈ l.foldl addElem acc ↔ x ∈ acc ∨ x ∈ l := by
  induction l generalizing acc with
  | nil => simp
  | cons e rest ih =>
    simp only [List.foldl_cons, ih, mem_addElem, List.mem_cons]
    tauto

/-- Every element of the fetched member set is the normalization of some
raw address on some page, and conversely. -/
theorem mem_collectMembers {x : String} (pages : List (List String)) :
    x ∈ collectMembers pages ↔ ∃ page ∈ pages, ∃ raw ∈ page, x = normalizeEmail raw := by
  have key : ∀ (ps : List (List String)) (acc : List String),
      x ∈ ps.foldl (fun a page => page.foldl (fun a m => addElem a (normalizeEmail m)) a) acc ↔
        x ∈ acc ∨ ∃ page ∈ ps, ∃ raw ∈ page, x = normalizeEmail raw := by
    intro ps
    induction ps with
    | nil => simp
    | cons page rest ih =>
      intro acc
      have inner : ∀ (pg : List String) (a : List String),
          x ∈ pg.foldl (fun a m => addElem a (normalizeEmail m)) a ↔
            x ∈ a ∨ ∃ raw ∈ pg, x = normalizeEmail raw := by
        intro pg
        induction pg with
        | nil => simp
        | cons m ms ihm =>
          intro a
          simp only [List.foldl_cons, ihm, mem_addElem, List.mem_cons]
          constructor
          · rintro ((h | h) | h)
            · exact Or.inl h
            · exact Or.inr ⟨m, Or.inl rfl, h⟩
            · rcases h with ⟨raw, hr, hx⟩
              exact Or.inr ⟨raw, Or.inr hr, hx⟩
          · rintro (h | ⟨raw, (rfl | hr), hx⟩)
            · exact Or.inl (Or.inl h)
            · exact Or.inl (Or.inr hx)
            · exact Or.inr ⟨raw, hr, hx⟩
      simp only [List.foldl_cons, ih, inner, List.mem_cons]
      constructor
      · rintro ((h | h) | h)
        · exact Or.inl h
        · rcases h with ⟨raw, hr, hx⟩
          exact Or.inr ⟨page, Or.inl rfl, raw, hr, hx⟩
        · rcases h with ⟨pg, hp, hrest⟩
          exact Or.inr ⟨pg, Or.inr hp, hrest⟩
      · rintro (h | ⟨pg, (rfl | hp), hrest⟩)
        · exact Or.inl (Or.inl h)
        · exact Or.inl (Or.inr hrest)
        · exact Or.inr ⟨pg, hp, hrest⟩
  simpa [collectMembers] using key pages []

/-- Membership in a classified target set: the address was contributed by
some roster member satisfying the classification predicate. -/
theorem mem_collectEmails {x : String} (ms : List Member) (p : Member → Bool) :
    x ∈ collectEmails ms p ↔ ∃ m ∈ ms, p m = true ∧ x ∈ get_contact_emails m := by
  have key : ∀ (l : List Member) (acc : List String),
      x ∈ l.foldl (fun acc m => if p m then (get_contact_emails m).foldl addElem acc else acc) acc ↔
        x ∈ acc ∨ ∃ m ∈ l, p m = true ∧ x ∈ get_contact_emails m := by
    intro l
    induction l with
    | nil => simp
    | cons m rest ih =>
      intro acc
      by_cases hp : p m = true
      · simp only [List.foldl_cons, hp, if_true, ih, mem_foldl_addElem, List.mem_cons]
        constructor
        · rintro ((h | h) | h)
          · exact Or.inl h
          · exact Or.inr ⟨m, Or.inl rfl, hp, h⟩
          · rcases h with ⟨m', hm', hrest⟩
            exact Or.inr ⟨m', Or.inr hm', hrest⟩
        · rintro (h | ⟨m', (rfl | hm'), hq, hx⟩)
          · exact Or.inl (Or.inl h)
          · exact Or.inl (Or.inr hx)
          · exact Or.inr ⟨m', hm', hq, hx⟩
      · rw [List.foldl_cons, if_neg hp, ih]
        simp only [List.mem_cons]
        constructor
        · rintro (h | h)
          · exact Or.inl h
          · rcases h with ⟨m', hm', hrest⟩
            exact Or.inr ⟨m', Or.inr hm', hrest⟩
        · rintro (h | ⟨m', (rfl | hm'), hq, hx⟩)
          · exact Or.inl h
          · exact absurd hq hp
          · exact Or.inr ⟨m', hm', hq, hx⟩
  simpa [collectEmails] using key ms []

/-- The boolean `add_member` returns in live mode depends only on the
provider outcome. -/
theorem add_member_fst (resp : ApiResult) (g e : String) (st : Directory) :
    (add_member false resp g e st).1 = addOk resp := by
  cases resp with
  | ok => rfl
  | httpError s =>
    simp only [add_member, addOk, if_false, Bool.false_eq_true, ite_false]
    by_cases h : s = 409 <;> simp [h]

/-- The boolean `remove_member` returns in live mode depends only on the
provider outcome. -/
theorem remove_member_fst (resp : ApiResult) (g e : String) (st : Directory) :
    (remove_member false resp g e st).1 = removeOk resp := by
  cases resp with
  | ok => rfl
  | httpError s =>
    simp only [remove_member, removeOk, if_false, Bool.false_eq_true, ite_false]
    by_cases h : s = 404 <;> simp [h]

/-- The mutation loop visits every address: its success count is the
count of success outcomes over the whole delta, and its success list is
the corresponding filter. -/
theorem applyMutations_spec (step : String → Directory → Bool × Directory)
    (f : String → Bool) (hstep : ∀ e s, (step e s).1 = f e) :
    ∀ (l : List String) (st : Directory),
      (applyMutations step l st).1 = l.countP f ∧
        (applyMutations step l st).2.1 = l.filter f := by
  intro l
  induction l with
  | nil => intro st; simp [applyMutations]
  | cons e rest ih =>
    intro st
    have h := hstep e st
    rcases ih (step e st).2 with ⟨hc, hl⟩
    by_cases hf : f e = true
    · simp [applyMutations, h, hf, hc, hl, List.countP_cons, List.filter_cons]
    · have hf' : f e = false := by revert hf; cases f e <;> simp
      simp [applyMutations, h, hf', hc, hl, List.countP_cons, List.filter_cons]

/-- Closed form of a dry-run `sync_group` call with a healthy listing:
the deltas are the two set differences against the fresh normalized
snapshot, the reported counts are the delta sizes, and the state is
untouched. -/
theorem sync_group_preview_eq (d : String) (aR dR : String → ApiResult)
    (g : String) (t : List String) (st : Directory) :
    sync_group (some d) true ⟨none, aR, dR⟩ g t st =
      (.ok { group_email := g ++ "@" ++ d
             current_count := (collectMembers [st.mem (g ++ "@" ++ d)]).length
             target_count := t.length
             added_count := (setDiff t (collectMembers [st.mem (g ++ "@" ++ d)])).length
             removed_count := (setDiff (collectMembers [st.mem (g ++ "@" ++ d)]) t).length
             added_emails := sortEmails (setDiff t (collectMembers [st.mem (g ++ "@" ++ d)]))
             removed_emails := sortEmails (setDiff (collectMembers [st.mem (g ++ "@" ++ d)]) t) },
       st) := rfl

/-- Closed form of a live `sync_group` call with a healthy listing: the
reported counts are the number of successful mutation attempts over the
whole deltas, one attempt per address. -/
theorem sync_group_live_fst (d : String) (aR dR : String → ApiResult)
    (g : String) (t : List String) (st : Directory) :
    (sync_group (some d) false ⟨none, aR, dR⟩ g t st).1 =
      .ok { group_email := g ++ "@" ++ d
            current_count := (collectMembers [st.mem (g ++ "@" ++ d)]).length
            target_count := t.length
            added_count := (setDiff t (collectMembers [st.mem (g ++ "@" ++ d)])).countP
              (fun e => addOk (aR e))
            removed_count := (setDiff (collectMembers [st.mem (g ++ "@" ++ d)]) t).countP
              (fun e => removeOk (dR e))
            added_emails := sortEmails ((setDiff t (collectMembers [st.mem (g ++ "@" ++ d)])).filter
              (fun e => addOk (aR e)))
            removed_emails := sortEmails ((setDiff (collectMembers [st.mem (g ++ "@" ++ d)]) t).filter
              (fun e => removeOk (dR e))) } := by
  have ha := applyMutations_spec
    (fun e s => add_member false (aR e) (g ++ "@" ++ d) e s)
    (fun e => addOk (aR e)) (fun e s => add_member_fst (aR e) _ e s)
    (setDiff t (collectMembers [st.mem (g ++ "@" ++ d)])) st
  have hr := applyMutations_spec
    (fun e s => remove_member false (dR e) (g ++ "@" ++ d) e s)
    (fun e => removeOk (dR e)) (fun e s => remove_member_fst (dR e) _ e s)
    (setDiff (collectMembers [st.mem (g ++ "@" ++ d)]) t)
    (applyMutations (fun e s => add_member false (aR e) (g ++ "@" ++ d) e s)
      (setDiff t (collectMembers [st.mem (g ++ "@" ++ d)])) st).2.2
  dsimp only [sync_group, listingOf, get_group_members]
  rw [ha.1, ha.2, hr.1, hr.2]
  simp

/-- A dry-run `sync_group` call leaves the directory state untouched, on
every path including the listing error paths. -/
theorem sync_group_preview_state (domain : Option String) (env : SyncEnv)
    (g : String) (t : List String) (st : Directory) :
    (sync_group domain true env g t st).2 = st := by
  obtain ⟨fault, aR, dR⟩ := env
  cases fault with
  | none => cases domain <;> rfl
  | some s =>
    cases domain <;>
      (dsimp only [sync_group, listingOf, get_group_members]
       by_cases h : s = 404 <;> simp [h])

/-- Any sequence of dry-run `sync_group` calls leaves the directory state
untouched. -/
theorem runPreviews_id (calls : List (Option String × SyncEnv × String × List String))
    (st : Directory) : runPreviews calls st = st := by
  induction calls generalizing st with
  | nil => rfl
  | cons c rest ih =>
    simp [runPreviews, List.foldl_cons] at *
    rw [sync_group_preview_state, ih]

/-- Every address a `Contact` contributes is a lowered original slot. -/
theorem mem_validLowerSlot {y : String} {e : Option String} :
    y ∈ validLowerSlot e → ∃ s, y = pyLowerStr s := by
  cases e with
  | none => simp [validLowerSlot]
  | some s =>
    simp only [validLowerSlot]
    by_cases hs : emailShape s = true
    · rw [if_pos hs]; intro h; simp at h; exact ⟨s, h⟩
    · rw [if_neg hs]; intro h; simp at h

/-- Every address an own-email slot contributes is the normalization of
the original slot value. -/
theorem mem_ownEmailSlot {x : String} {e : Option String} :
    x ∈ ownEmailSlot e → ∃ raw, x = normalizeEmail raw := by
  cases e with
  | none => simp [ownEmailSlot]
  | some s =>
    simp only [ownEmailSlot]
    by_cases hs : emailShape (pyLowerStr s) = true
    · rw [if_pos hs]; intro h; simp at h; exact ⟨s, h⟩
    · rw [if_neg hs]; intro h; simp at h

/-- Every address of `get_contact_emails` is the normalization (lowercase
plus googlemail canonicalization) of some raw roster address. -/
theorem mem_get_contact_emails {x : String} (m : Member) :
    x ∈ get_contact_emails m → ∃ raw, x = normalizeEmail raw := by
  intro hx
  simp only [get_contact_emails, List.mem_append, List.mem_flatten, List.mem_map] at hx
  rcases hx with (h1 | h2) | h3
  · exact mem_ownEmailSlot h1
  · exact mem_ownEmailSlot h2
  · rcases h3 with ⟨l, ⟨ct, hct, rfl⟩, hxl⟩
    rcases List.mem_map.1 hxl with ⟨y, hy, rfl⟩
    simp only [get_valid_emails, List.mem_append] at hy
    rcases hy with hy | hy <;>
      [rcases mem_validLowerSlot hy with ⟨s, rfl⟩; rcases mem_validLowerSlot hy with ⟨s, rfl⟩] <;>
      exact ⟨s, rfl⟩

/-- For a member with the leader role, the adult/young split is exactly
the age-18 threshold of `age_at_date` at today's date. -/
theorem leader_age_classification (m : Member) (today : PDate)
    (hl : is_leader m = true) :
    (is_adult_leader m today = true ↔ 18 ≤ age_at_date m today) ∧
    (is_young_leader m today = true ↔ age_at_date m today < 18) := by
  constructor <;> simp [is_adult_leader, is_young_leader, hl]

/-- A leader born exactly 18 years before today (same month and day) has
age 18 today and is an adult leader. -/
theorem adult_on_18th_birthday (m : Member) (today : PDate)
    (hl : is_leader m = true)
    (hb : m.date_of_birth = ⟨today.year - 18, today.month, today.day⟩) :
    is_adult_leader m today = true := by
  simp only [is_adult_leader, hl, Bool.true_and, decide_eq_true_eq]
  simp [age_at_date, hb, monthDayLt]

/-- A leader whose 18th birthday is tomorrow has age 17 today and is a
young leader. -/
theorem young_day_before_18th (m : Member) (today : PDate)
    (hl : is_leader m = true)
    (hb : nextDay today = ⟨m.date_of_birth.year + 18, m.date_of_birth.month,
      m.date_of_birth.day⟩) :
    is_young_leader m today = true := by
  simp only [is_young_leader, hl, Bool.true_and, decide_eq_true_eq]
  unfold nextDay at hb
  split at hb
  · injection hb with h1 h2 h3
    have hlt : monthDayLt today m.date_of_birth = true := by
      unfold monthDayLt
      rw [← h2, ← h3]
      simp
    simp only [age_at_date, hlt, if_true]
    omega
  · split at hb
    · injection hb with h1 h2 h3
      have hlt : monthDayLt today m.date_of_birth = true := by
        unfold monthDayLt
        rw [if_pos (by omega)]
      simp only [age_at_date, hlt, if_true]
      omega
    · next hc1 hc2 =>
      injection hb with h1 h2 h3
      have hlt : monthDayLt today m.date_of_birth = false := by
        unfold monthDayLt
        rw [if_neg (by omega), if_neg (by omega)]
      simp only [age_at_date, hlt, if_false]
      omega

/-- Per-group bookkeeping of the inner loop: every group call is
processed regardless of earlier failures; the success count, error list
and audit log are accumulated per call, and the running status and
section counter are untouched. -/
theorem runGroups_spec (sname : String)
    (calls : List (String × Except String GroupSyncOutput)) :
    ∀ (res : BatchResults) (log : List AuditEntry),
      (runGroups sname calls res log).1.groups_synced =
          res.groups_synced + calls.countP (fun c => exceptOk c.2) ∧
        (runGroups sname calls res log).1.errors =
          res.errors ++ calls.filterMap (errorStringOf sname) ∧
        (runGroups sname calls res log).2 = log ++ calls.map (entryOf sname) ∧
        (runGroups sname calls res log).1.status = res.status ∧
        (runGroups sname calls res log).1.sections_synced = res.sections_synced := by
  induction calls with
  | nil => intro res log; simp [runGroups]
  | cons c rest ih =>
    intro res log
    obtain ⟨gtype, outcome⟩ := c
    cases outcome with
    | ok r =>
      have h := ih { res with groups_synced := res.groups_synced + 1
                              total_added := res.total_added + r.added_emails.length
                              total_removed := res.total_removed + r.removed_emails.length }
        (log ++ [{ section_name := sname, group_type := gtype, status := "success"
                   members_added := r.added_emails, members_removed := r.removed_emails
                   error_message := none }])
      simp only [runGroups] at *
      refine ⟨?_, ?_, ?_, ?_, ?_⟩
      all_goals
        simp [h.1, h.2.1, h.2.2.1, h.2.2.2.1, h.2.2.2.2, entryOf, errorStringOf,
          List.countP_cons, exceptOk]
      all_goals omega
    | error e =>
      have h := ih { res with errors := res.errors ++ [sname ++ " - " ++ gtype ++ ": " ++ e] }
        (log ++ [{ section_name := sname, group_type := gtype, status := "error"
                   members_added := [], members_removed := []
                   error_message := some e }])
      simp only [runGroups] at *
      refine ⟨?_, ?_, ?_, ?_, ?_⟩
      all_goals
        simp [h.1, h.2.1, h.2.2.1, h.2.2.2.1, h.2.2.2.2, entryOf, errorStringOf,
          List.countP_cons, exceptOk]

/-- When every reached section's member fetch succeeds, the section loop
runs to completion (no exception escapes) and never changes the running
status. -/
theorem runSections_no_abort (sections : List BatchSection)
    (hok : ∀ s ∈ sections, s.hasTerm = true → exceptOk s.membersFetch = true) :
    ∀ (res : BatchResults) (log : List AuditEntry),
      (runSections sections res log).2.2 = none ∧
        (runSections sections res log).1.status = res.status := by
  induction sections with
  | nil => intro res log; simp [runSections]
  | cons s rest ih =>
    intro res log
    have hrest : ∀ t ∈ rest, t.hasTerm = true → exceptOk t.membersFetch = true :=
      fun t ht => hok t (List.mem_cons_of_mem s ht)
    by_cases ht : s.hasTerm = true
    · have hfetch := hok s (List.mem_cons_self s rest) ht
      cases hf : s.membersFetch with
      | error e => rw [hf] at hfetch; simp [exceptOk] at hfetch
      | ok u =>
        simp only [runSections, ht, if_true, hf]
        have h := ih hrest { (runGroups s.sectionname s.groupCalls res log).1 with
          sections_synced := (runGroups s.sectionname s.groupCalls res log).1.sections_synced + 1 }
          (runGroups s.sectionname s.groupCalls res log).2
        refine ⟨h.1, ?_⟩
        rw [h.2]
        exact (runGroups_spec s.sectionname s.groupCalls res log).2.2.2.1
    · have ht' : s.hasTerm = false := by revert ht; cases s.hasTerm <;> simp
      simp only [runSections, ht', Bool.false_eq_true, if_false]
      exact ih hrest _ log

/-- The first section with a current term whose member fetch fails makes
the section loop re-raise that exception. -/
theorem runSections_abort (s : BatchSection) (post : List BatchSection) (e : String)
    (ht : s.hasTerm = true) (hf : s.membersFetch = .error e) :
    ∀ (pre : List BatchSection),
      (∀ t ∈ pre, t.hasTerm = true → exceptOk t.membersFetch = true) →
      ∀ (res : BatchResults) (log : List AuditEntry),
        (runSections (pre ++ s :: post) res log).2.2 = some e := by
  intro pre
  induction pre with
  | nil =>
    intro _ res log
    simp only [List.nil_append, runSections, ht, if_true, hf]
  | cons t rest ih =>
    intro hok res log
    have hrest : ∀ u ∈ rest, u.hasTerm = true → exceptOk u.membersFetch = true :=
      fun u hu => hok u (List.mem_cons_of_mem t hu)
    by_cases hth : t.hasTerm = true
    · have := hok t (List.mem_cons_self t rest) hth
      cases htf : t.membersFetch with
      | error e' => rw [htf] at this; simp [exceptOk] at this
      | ok u =>
        simp only [List.cons_append, runSections, hth, if_true, htf]
        exact ih hrest _ _
    · have hth' : t.hasTerm = false := by revert hth; cases t.hasTerm <;> simp
      simp only [List.cons_append, runSections, hth', Bool.false_eq_true, if_false]
      exact ih hrest _ _

/-- A batch whose sections all fetch cleanly completes with status
`success` when no error accumulated and `completed_with_errors`
otherwise. -/
theorem perform_sync_completed (sections : List BatchSection)
    (hok : ∀ s ∈ sections, s.hasTerm = true → exceptOk s.membersFetch = true) :
    (perform_sync (.ok ()) (.ok sections)).1.status =
      (if (perform_sync (.ok ()) (.ok sections)).1.errors.isEmpty then "success"
       else "completed_with_errors") := by
  have h := runSections_no_abort sections hok initialResults []
  dsimp only [perform_sync]
  rcases hrun : runSections sections initialResults [] with ⟨res, log, ab⟩
  rw [hrun] at h
  cases ab with
  | none =>
    have h2 : res.status = "success" := h.2
    by_cases he : res.errors.isEmpty
    · simp [he, h2]
    · simp [he]
  | some e => simp at h

/-- A configuration load failure fails the whole batch. -/
theorem perform_sync_failed_cfg (e : String) (sf : Except String (List BatchSection)) :
    (perform_sync (.error e) sf).1.status = "failed" := rfl

/-- A failure of the initial section fetch fails the whole batch. -/
theorem perform_sync_failed_sections (e : String) :
    (perform_sync (.ok ()) (.error e)).1.status = "failed" := rfl

/-- A member fetch failing for any reached section — even mid-batch —
fails the whole batch. -/
theorem perform_sync_failed_fetch (pre : List BatchSection) (s : BatchSection)
    (post : List BatchSection) (e : String)
    (hpre : ∀ t ∈ pre, t.hasTerm = true → exceptOk t.membersFetch = true)
    (ht : s.hasTerm = true) (hf : s.membersFetch = .error e) :
    (perform_sync (.ok ()) (.ok (pre ++ s :: post))).1.status = "failed" := by
  have h := runSections_abort s post e ht hf pre hpre initialResults []
  dsimp only [perform_sync]
  rcases hrun : runSections (pre ++ s :: post) initialResults [] with ⟨res, log, ab⟩
  rw [hrun] at h
  simp only at h
  subst h
  rfl

/-! ## Claim theorems -/

/-- C1: for every target set and current snapshot the reconciliation
computes `toAdd = target − current` and `toRemove = current − target`
(standard set difference on normalized addresses); in particular with
current = `{a@x.com, b@x.com}` and target = `{b@x.com, c@x.com}` the
`sync_group` result reports toAdd = `{c@x.com}` and
toRemove = `{a@x.com}`. -/
theorem claim1_delta_is_set_difference :
    (∀ (target current : List String) (e : String),
        (e ∈ setDiff target current ↔ e ∈ target ∧ e ∉ current) ∧
        (e ∈ setDiff current target ↔ e ∈ current ∧ e ∉ target)) ∧
    ((sync_group (some "x.com") true ⟨none, fun _ => .ok, fun _ => .ok⟩ "grp"
        ["b@x.com", "c@x.com"]
        ⟨fun g => if g = "grp@x.com" then ["a@x.com", "b@x.com"] else []⟩).1 =
      .ok { group_email := "grp@x.com", current_count := 2, target_count := 2,
            added_count := 1, removed_count := 1,
            added_emails := ["c@x.com"], removed_emails := ["a@x.com"] }) :=
  ⟨fun _ _ _ => ⟨mem_setDiff, mem_setDiff⟩, by decide⟩

/-- C2: in Live mode every address of both deltas is attempted — one
mutation call per address, independent of the other calls' outcomes —
and the returned `added_count`/`removed_count` are exactly the number of
successful attempts (idempotent 409/404 outcomes counting as successes
through `addOk`/`removeOk`), not the delta sizes; in the concrete
scenario where the add of `z@x.com` gets a provider error 500 while
`y@x.com` succeeds, the result reports `added_count = 1`. -/
theorem claim2_partial_failure_isolation :
    (∀ (d : String) (aR dR : String → ApiResult) (g : String) (t : List String)
        (st : Directory),
      (sync_group (some d) false ⟨none, aR, dR⟩ g t st).1 =
        .ok { group_email := g ++ "@" ++ d
              current_count := (collectMembers [st.mem (g ++ "@" ++ d)]).length
              target_count := t.length
              added_count := (setDiff t (collectMembers [st.mem (g ++ "@" ++ d)])).countP
                (fun e => addOk (aR e))
              removed_count := (setDiff (collectMembers [st.mem (g ++ "@" ++ d)]) t).countP
                (fun e => removeOk (dR e))
              added_emails := sortEmails
                ((setDiff t (collectMembers [st.mem (g ++ "@" ++ d)])).filter
                  (fun e => addOk (aR e)))
              removed_emails := sortEmails
                ((setDiff (collectMembers [st.mem (g ++ "@" ++ d)]) t).filter
                  (fun e => removeOk (dR e))) }) ∧
    ((sync_group (some "x.com") false
        ⟨none, fun e => if e = "z@x.com" then .httpError 500 else .ok, fun _ => .ok⟩
        "grp" ["y@x.com", "z@x.com"] ⟨fun _ => []⟩).1.map SyncResult.added_count = .ok 1) :=
  ⟨sync_group_live_fst, by decide⟩

/-- C3 counterexample: a Preview-mode reconciliation with a nonempty
computed `toAdd` returns `added_count = 1`, not the zero succeeded-count
the claim asserts — `sync_group` reuses the `added_count` /
`removed_count` fields for the delta sizes in dry-run mode. -/
theorem claim3_counterexample :
    ((sync_group (some "x.com") true ⟨none, fun _ => .ok, fun _ => .ok⟩ "grp"
        ["a@x.com"] ⟨fun _ => []⟩).1.map SyncResult.added_count = .ok 1) ∧
    (1 : Nat) ≠ 0 :=
  ⟨by decide, by decide⟩

/-- C3 amended: Preview mode returns a result carrying the full computed
`toAdd`/`toRemove` sets (sorted) and their counts — with `added_count`
and `removed_count` equal to the delta sizes rather than zero, since the
result has no separate succeeded-count fields — and performs no
mutation. -/
theorem claim3_preview_reports_delta_counts :
    ∀ (d : String) (aR dR : String → ApiResult) (g : String) (t : List String)
      (st : Directory),
      sync_group (some d) true ⟨none, aR, dR⟩ g t st =
        (.ok { group_email := g ++ "@" ++ d
               current_count := (collectMembers [st.mem (g ++ "@" ++ d)]).length
               target_count := t.length
               added_count := (setDiff t (collectMembers [st.mem (g ++ "@" ++ d)])).length
               removed_count := (setDiff (collectMembers [st.mem (g ++ "@" ++ d)]) t).length
               added_emails := sortEmails (setDiff t (collectMembers [st.mem (g ++ "@" ++ d)]))
               removed_emails := sortEmails (setDiff (collectMembers [st.mem (g ++ "@" ++ d)]) t) },
         st) :=
  sync_group_preview_eq

/-- C4: Preview mode is read-only — a dry-run `sync_group` call never
issues a mutation, so the directory state is unchanged on every path
(including listing error paths), any sequence of Preview calls leaves it
unchanged, and the result of a later `get_group_members` fetch is
unaffected. -/
theorem claim4_preview_read_only :
    (∀ (domain : Option String) (env : SyncEnv) (g : String) (t : List String)
        (st : Directory), (sync_group domain true env g t st).2 = st) ∧
    (∀ (calls : List (Option String × SyncEnv × String × List String))
        (st : Directory), runPreviews calls st = st) ∧
    (∀ (calls : List (Option String × SyncEnv × String × List String))
        (st : Directory) (fault : Option Nat) (g : String),
        get_group_members (listingOf fault (runPreviews calls st) g) =
          get_group_members (listingOf fault st g)) :=
  ⟨sync_group_preview_state, runPreviews_id,
   fun calls st fault g => by rw [runPreviews_id]⟩

/-- C5: `get_group_members` returns the empty set with the warning signal
exactly on a provider 404 (group not found); any other provider error is
re-raised rather than being turned into a set, and a healthy listing
yields the normalized member set with no warning. -/
theorem claim5_not_found_vs_error :
    (get_group_members (.error 404) = .ok ⟨[], true⟩) ∧
    (∀ s : Nat, s ≠ 404 → get_group_members (.error s) = .error s) ∧
    (∀ pages, get_group_members (.ok pages) = .ok ⟨collectMembers pages, false⟩) ∧
    (∀ (listing : Except Nat (List (List String))) (members : List String),
        get_group_members listing = .ok ⟨members, true⟩ ↔
          (listing = .error 404 ∧ members = [])) := by
  refine ⟨rfl, ?_, fun pages => rfl, ?_⟩
  · intro s hs; simp [get_group_members, hs]
  · intro listing members
    cases listing with
    | ok pages => simp [get_group_members]
    | error s =>
      by_cases hs : s = 404
      · subst hs
        simp [get_group_members, FetchResult.mk.injEq, eq_comm]
      · simp [get_group_members, hs]

/-- C5 witness: a provider error 500 is not 404 and is re-raised. -/
theorem claim5_not_found_vs_error_witness :
    (500 : Nat) ≠ 404 ∧ get_group_members (.error 500) = .error 500 :=
  ⟨by decide, claim5_not_found_vs_error.2.1 500 (by decide)⟩

/-- C6: the mutation primitives are idempotent at the interface —
`add_member` returns success on provider 409 (already a member) and
`remove_member` returns success on provider 404 (not a member), with no
state change and no error surfaced; in live mode their boolean outcome
is exactly `addOk`/`removeOk` of the provider outcome. -/
theorem claim6_idempotent_mutation_primitives :
    ∀ (g e : String) (st : Directory),
      add_member false (.httpError 409) g e st = (true, st) ∧
      remove_member false (.httpError 404) g e st = (true, st) ∧
      (∀ resp, (add_member false resp g e st).1 = addOk resp) ∧
      (∀ resp, (remove_member false resp g e st).1 = removeOk resp) ∧
      addOk (.httpError 409) = true ∧ removeOk (.httpError 404) = true := by
  intro g e st
  exact ⟨rfl, rfl, fun resp => add_member_fst resp g e st,
    fun resp => remove_member_fst resp g e st, rfl, rfl⟩

/-- C7 counterexample: a second section's member-roster fetch failing
mid-batch makes `perform_sync` return status `failed` even though the
first section's three groups were already processed
(`groups_synced = 3 ≠ 0`) — so `failed` is not reserved for errors that
occur before any group-level processing can begin, and a section-level
fetch failure is not caught-and-continued. -/
theorem claim7_counterexample :
    (perform_sync (.ok ()) (.ok
      [⟨"S1", true, .ok (), [("leaders", .ok ⟨["a@x.com"], []⟩),
          ("young_leaders", .ok ⟨[], []⟩), ("parents", .ok ⟨[], []⟩)]⟩,
       ⟨"S2", true, .error "network down", [("leaders", .ok ⟨[], []⟩)]⟩])).1 =
      { status := "failed", sections_synced := 1, groups_synced := 3,
        total_added := 1, total_removed := 0, errors := ["network down"] } ∧
    (3 : Nat) ≠ 0 := ⟨by decide, by decide⟩

/-- C7 amended: a failure of a single group's `sync_group` call is
caught, recorded as an error audit entry, appended to the aggregate
error list, and processing continues with the next group; a batch whose
sections all fetch cleanly completes with `success` when no error
accumulated and `completed_with_errors` otherwise; the batch status is
`failed` when configuration loading, the initial section fetch, or any
reached section's member-roster fetch raises — the last of which can
happen mid-batch, after earlier groups were already processed. -/
theorem claim7_batch_error_isolation :
    (∀ (sname : String) (calls : List (String × Except String GroupSyncOutput))
        (res : BatchResults) (log : List AuditEntry),
      (runGroups sname calls res log).1.groups_synced =
          res.groups_synced + calls.countP (fun c => exceptOk c.2) ∧
      (runGroups sname calls res log).1.errors =
          res.errors ++ calls.filterMap (errorStringOf sname) ∧
      (runGroups sname calls res log).2 = log ++ calls.map (entryOf sname)) ∧
    (∀ sections : List BatchSection,
      (∀ s ∈ sections, s.hasTerm = true → exceptOk s.membersFetch = true) →
      (perform_sync (.ok ()) (.ok sections)).1.status =
        (if (perform_sync (.ok ()) (.ok sections)).1.errors.isEmpty then "success"
         else "completed_with_errors")) ∧
    (∀ (e : String) (sf : Except String (List BatchSection)),
      (perform_sync (.error e) sf).1.status = "failed") ∧
    (∀ e : String, (perform_sync (.ok ()) (.error e)).1.status = "failed") ∧
    (∀ (pre : List BatchSection) (s : BatchSection) (post : List BatchSection)
        (e : String),
      (∀ t ∈ pre, t.hasTerm = true → exceptOk t.membersFetch = true) →
      s.hasTerm = true → s.membersFetch = .error e →
      (perform_sync (.ok ()) (.ok (pre ++ s :: post))).1.status = "failed") := by
  refine ⟨?_, perform_sync_completed, perform_sync_failed_cfg,
    perform_sync_failed_sections, ?_⟩
  · intro sname calls res log
    have h := runGroups_spec sname calls res log
    exact ⟨h.1, h.2.1, h.2.2.1⟩
  · intro pre s post e hpre ht hf
    exact perform_sync_failed_fetch pre s post e hpre ht hf

/-- C7 witness: a one-section batch whose only group call fails still
completes (status from the completed-run rule), and a batch whose first
section's member fetch raises has status `failed`. -/
theorem claim7_batch_error_isolation_witness :
    ((∀ s ∈ ([⟨"S1", true, .ok (), [("leaders", .error "boom")]⟩] : List BatchSection),
        s.hasTerm = true → exceptOk s.membersFetch = true) ∧
      (perform_sync (.ok ())
        (.ok [⟨"S1", true, .ok (), [("leaders", .error "boom")]⟩])).1.status =
        (if (perform_sync (.ok ())
            (.ok [⟨"S1", true, .ok (), [("leaders", .error "boom")]⟩])).1.errors.isEmpty
         then "success" else "completed_with_errors")) ∧
    ((⟨"S2", true, .error "net", []⟩ : BatchSection).hasTerm = true ∧
      (perform_sync (.ok ())
        (.ok ([] ++ (⟨"S2", true, .error "net", []⟩ : BatchSection) :: []))).1.status =
        "failed") :=
  ⟨⟨by decide, claim7_batch_error_isolation.2.1 _ (by decide)⟩,
   ⟨by decide, claim7_batch_error_isolation.2.2.2.2 [] _ [] "net" (by simp)
      (by decide) (by decide)⟩⟩

/-- C8: a member carrying the leader role designator is classified as an
adult leader exactly when `age_at_date` at today's date is at least 18
and as a young leader exactly when it is below 18; a leader born exactly
18 years before today (same month and day) is an adult leader, and a
leader whose 18th birthday is tomorrow (today is one day before) is a
young leader. -/
theorem claim8_age_boundary :
    (∀ (m : Member) (today : PDate), is_leader m = true →
      ((is_adult_leader m today = true ↔ 18 ≤ age_at_date m today) ∧
       (is_young_leader m today = true ↔ age_at_date m today < 18))) ∧
    (∀ (m : Member) (today : PDate), is_leader m = true →
      m.date_of_birth = ⟨today.year - 18, today.month, today.day⟩ →
      is_adult_leader m today = true) ∧
    (∀ (m : Member) (today : PDate), is_leader m = true →
      nextDay today = ⟨m.date_of_birth.year + 18, m.date_of_birth.month,
        m.date_of_birth.day⟩ →
      is_young_leader m today = true) :=
  ⟨leader_age_classification, adult_on_18th_birthday, young_day_before_18th⟩

/-- C8 witness: on 2026-10-12, a leader born 2008-10-12 is an adult
leader and a leader born 2008-10-13 is a young leader. -/
theorem claim8_age_boundary_witness :
    (is_leader { member_id := "1"
                 first_name := "Jo"
                 last_name := "Li"
                 date_of_birth := ⟨2008, 10, 12⟩
                 patrol := "Leaders" } = true ∧
      is_adult_leader { member_id := "1"
                        first_name := "Jo"
                        last_name := "Li"
                        date_of_birth := ⟨2008, 10, 12⟩
                        patrol := "Leaders" } ⟨2026, 10, 12⟩ = true) ∧
    (is_leader { member_id := "2"
                 first_name := "Al"
                 last_name := "Yu"
                 date_of_birth := ⟨2008, 10, 13⟩
                 patrol := "Young Leaders (YLs)" } = true ∧
      is_young_leader { member_id := "2"
                        first_name := "Al"
                        last_name := "Yu"
                        date_of_birth := ⟨2008, 10, 13⟩
                        patrol := "Young Leaders (YLs)" } ⟨2026, 10, 12⟩ = true) :=
  ⟨⟨by decide, claim8_age_boundary.2.1 _ ⟨2026, 10, 12⟩ (by decide) (by decide)⟩,
   ⟨by decide, claim8_age_boundary.2.2 _ ⟨2026, 10, 12⟩ (by decide) (by decide)⟩⟩

/-- C9: the same normalization (lowercase plus googlemail→gmail
canonicalization) is applied to every address entering the snapshot set
and to every address entering a target set, so `member@GoogleMail.com`
and `member@gmail.com` denote the identical normalized address, and an
aliased pair is a single element for set-difference purposes: the two
normal forms are interchangeable in `toAdd` and `toRemove` and can never
be split across them. -/
theorem claim9_normalization :
    (normalizeEmail "member@GoogleMail.com" = normalizeEmail "member@gmail.com") ∧
    (∀ (pages : List (List String)) (x : String), x ∈ collectMembers pages →
        ∃ page ∈ pages, ∃ raw ∈ page, x = normalizeEmail raw) ∧
    (∀ (m : Member) (x : String), x ∈ get_contact_emails m →
        ∃ raw, x = normalizeEmail raw) ∧
    (∀ (a b : String) (target current : List String),
        normalizeEmail a = normalizeEmail b →
        ((normalizeEmail a ∈ setDiff target current ↔
            normalizeEmail b ∈ setDiff target current) ∧
         (normalizeEmail a ∈ setDiff current target ↔
            normalizeEmail b ∈ setDiff current target) ∧
         ¬(normalizeEmail a ∈ setDiff target current ∧
             normalizeEmail b ∈ setDiff current target))) := by
  refine ⟨by decide, ?_, ?_, ?_⟩
  · intro pages x hx
    exact (mem_collectMembers pages).1 hx
  · intro m x hx
    exact mem_get_contact_emails m hx
  · intro a b target current h
    refine ⟨by rw [h], by rw [h], ?_⟩
    rintro ⟨h1, h2⟩
    rw [h] at h1
    exact (mem_setDiff.1 h1).2 (mem_setDiff.1 h2).1

/-- C9 witness: `A@googlemail.com` read from a snapshot page appears as
the normalized `a@gmail.com`, and the concrete aliased pair
`member@GoogleMail.com` / `member@gmail.com` cannot be split across
`toAdd` and `toRemove`. -/
theorem claim9_normalization_witness :
    ("a@gmail.com" ∈ collectMembers [["A@googlemail.com"]]) ∧
    (∃ page ∈ [["A@googlemail.com"]], ∃ raw ∈ page, "a@gmail.com" = normalizeEmail raw) ∧
    (normalizeEmail "member@GoogleMail.com" = normalizeEmail "member@gmail.com") ∧
    ¬(normalizeEmail "member@GoogleMail.com" ∈ setDiff ["member@gmail.com"] [] ∧
        normalizeEmail "member@gmail.com" ∈ setDiff [] ["member@gmail.com"]) :=
  ⟨by decide, claim9_normalization.2.1 [["A@googlemail.com"]] "a@gmail.com" (by decide),
   by decide,
   (claim9_normalization.2.2.2 "member@GoogleMail.com" "member@gmail.com"
     ["member@gmail.com"] [] (by decide)).2.2⟩

/-- C10: for every member exactly one of the three classification
predicates holds — adult leader, young leader, or non-leader
(parent/other) — the three classes partition any roster by count, and
each per-section target set contains exactly the addresses contributed
by members of its one class. -/
theorem claim10_classification_partition :
    (∀ (m : Member) (today : PDate),
      (is_adult_leader m today = true ∧ is_young_leader m today = false ∧
        is_leader m = true) ∨
      (is_young_leader m today = true ∧ is_adult_leader m today = false ∧
        is_leader m = true) ∨
      (is_leader m = false ∧ is_adult_leader m today = false ∧
        is_young_leader m today = false)) ∧
    (∀ (ms : List Member) (today : PDate),
      ms.countP (fun m => is_adult_leader m today) +
        ms.countP (fun m => is_young_leader m today) +
        ms.countP (fun m => !(is_leader m)) = ms.length) ∧
    (∀ (s : Section) (today : PDate) (x : String),
      (x ∈ get_leaders_emails s today ↔
        ∃ m ∈ s.members, is_adult_leader m today = true ∧ x ∈ get_contact_emails m) ∧
      (x ∈ get_young_leaders_emails s today ↔
        ∃ m ∈ s.members, is_young_leader m today = true ∧ x ∈ get_contact_emails m) ∧
      (x ∈ get_parents_emails s today ↔
        ∃ m ∈ s.members, is_leader m = false ∧ x ∈ get_contact_emails m)) := by
  have htri : ∀ (m : Member) (today : PDate),
      (is_adult_leader m today = true ∧ is_young_leader m today = false ∧
        is_leader m = true) ∨
      (is_young_leader m today = true ∧ is_adult_leader m today = false ∧
        is_leader m = true) ∨
      (is_leader m = false ∧ is_adult_leader m today = false ∧
        is_young_leader m today = false) := by
    intro m today
    by_cases hl : is_leader m = true
    · by_cases ha : (18 : Int) ≤ age_at_date m today
      · refine Or.inl ⟨by simp [is_adult_leader, hl, ha], ?_, hl⟩
        simp only [is_young_leader, hl, Bool.true_and, decide_eq_false_iff_not]
        omega
      · refine Or.inr (Or.inl ⟨?_, ?_, hl⟩)
        · simp only [is_young_leader, hl, Bool.true_and, decide_eq_true_eq]
          omega
        · simp only [is_adult_leader, hl, Bool.true_and, decide_eq_false_iff_not]
          omega
    · have hl' : is_leader m = false := by revert hl; cases is_leader m <;> simp
      exact Or.inr (Or.inr ⟨hl', by simp [is_adult_leader, hl'],
        by simp [is_young_leader, hl']⟩)
  refine ⟨htri, ?_, ?_⟩
  · intro ms today
    induction ms with
    | nil => simp
    | cons m rest ih =>
      simp only [List.countP_cons, List.length_cons]
      rcases htri m today with ⟨h1, h2, h3⟩ | ⟨h1, h2, h3⟩ | ⟨h1, h2, h3⟩ <;>
        simp [h1, h2, h3] <;> omega
  · intro s today x
    refine ⟨mem_collectEmails s.members _, mem_collectEmails s.members _, ?_⟩
    refine (mem_collectEmails s.members _).trans ?_
    constructor
    · rintro ⟨m, hm, hp, hx⟩
      exact ⟨m, hm, by revert hp; cases is_leader m <;> simp, hx⟩
    · rintro ⟨m, hm, hp, hx⟩
      exact ⟨m, hm, by simp [hp], hx⟩

end OsmGsuite
